import Mathlib

/-!
Shallow embedding of the playback coordinator of `src/src/HoverVideoPlayer.js`
(react-hover-video-player).

The component keeps:
  * `overlayState` (React state, the user-visible phase: paused / loading / playing),
  * a mutable `mutablePlayAttemptState` ref with `isPlayAttemptInProgress` and
    `isPlayAttemptCancelled` flags,
  * two timeout refs (`loadingStateTimeoutRef`, `pauseTimeoutRef`).

Event handlers `onHoverStart`, `onHoverEnd`, the internal `playVideo` / `pauseVideo`
helpers and the play-promise `.catch(...).then(...)` continuation chain are translated
below as pure state transformers; the browser event loop is modelled by a `step`
function over an `Event` alphabet (hover events, timer firings, play-promise
settlement, unmount cleanup), and `run` folds an event list.  Timers are modelled by
pending flags (each timeout ref holds at most one pending callback; `clearTimeout`
clears the flag, a timer-fire event is a no-op when the flag is clear, matching a
cancelled timeout).  The media element is modelled by its playback state and
`currentTime`; calling `play()` moves it to a loading state (it is no longer paused
but playback has not started), the promise resolving corresponds to the `playing`
event, i.e. the element having reached the playing state.
-/

namespace HoverVideoPlayer

/-- The `HOVER_PLAYER_STATE` enum of HoverVideoPlayer.js (the value held in
`overlayState`, i.e. the user-visible phase). -/
inductive HoverPlayerState
  | paused
  | loading
  | playing
deriving DecidableEq, Repr

/-- Playback states of the underlying media element, as distinguished by the
`VIDEO_STATE` enum consumed by HoverVideoPlayer.js: `paused` (element paused),
`loading` (`play()` was called but playback has not started), `playing`. -/
inductive VideoState
  | paused
  | loading
  | playing
deriving DecidableEq, Repr

/-- The slice of the media element the coordinator touches: its playback state and
its `currentTime` (modelled in integral units). -/
structure VideoElement where
  videoState : VideoState
  currentTime : Nat
deriving DecidableEq, Repr

/-- Modelled from the spec: `getVideoState` lives in `src/utils.js`, which is not
under `src/`; the spec describes it only as the "playback-state query" on the media
element, so it is modelled as reading off the element's playback state. -/
def getVideoState (v : VideoElement) : VideoState :=
  v.videoState

/-- The props of HoverVideoPlayer that the coordinator logic reads.  Overlay nodes
are modelled by whether they are configured (non-null). -/
structure Props where
  isFocused : Bool
  hasPausedOverlay : Bool
  hasLoadingOverlay : Bool
  loadingStateTimeoutDuration : Nat
  overlayFadeTransitionDuration : Nat
  shouldRestartOnVideoStopped : Bool
deriving DecidableEq, Repr

/-- The coordinator state of one HoverVideoPlayer instance: `overlayState` React
state, the `mutablePlayAttemptState` ref flags, the two timeout refs (pending flag,
plus the delay the pause timeout was scheduled with), the media element, and a
counter of how many times `videoElement.play()` has been invoked (to express "does
not start a second attempt").  `errorLogCount` counts `console.error` calls made by
the play-promise catch handler. -/
structure PlayerState where
  overlayState : HoverPlayerState
  isPlayAttemptInProgress : Bool
  isPlayAttemptCancelled : Bool
  loadingTimerPending : Bool
  pauseTimerPending : Bool
  pauseTimerDelay : Nat
  video : VideoElement
  playCallCount : Nat
  errorLogCount : Nat
deriving DecidableEq, Repr

/-- The initial state of a freshly mounted instance: `overlayState` starts as
`paused` (`React.useState(HOVER_PLAYER_STATE.paused)`), the play-attempt flags start
false, no timeouts are pending, and the media element is paused at time 0. -/
def initialState : PlayerState :=
  { overlayState := HoverPlayerState.paused
    isPlayAttemptInProgress := false
    isPlayAttemptCancelled := false
    loadingTimerPending := false
    pauseTimerPending := false
    pauseTimerDelay := 0
    video := { videoState := VideoState.paused, currentTime := 0 }
    playCallCount := 0
    errorLogCount := 0 }

/-- `playVideo` (HoverVideoPlayer.js lines 118-150): sets
`isPlayAttemptInProgress = true` and calls `videoElement.play()` (the element stops
being paused; playback has not started yet, so it is loading), keeping the returned
play promise.  The promise's settlement is delivered later as an event. -/
def playVideo (s : PlayerState) : PlayerState :=
  { s with
    isPlayAttemptInProgress := true
    video := { s.video with videoState := VideoState.loading }
    playCallCount := s.playCallCount + 1 }

/-- `pauseVideo` (HoverVideoPlayer.js lines 158-173): if a play attempt is in
progress, only mark it cancelled; otherwise pause the element and, when
`shouldRestartOnVideoStopped`, reset `currentTime` to 0. -/
def pauseVideo (p : Props) (s : PlayerState) : PlayerState :=
  if s.isPlayAttemptInProgress then
    { s with isPlayAttemptCancelled := true }
  else
    let v := { s.video with videoState := VideoState.paused }
    let v := if p.shouldRestartOnVideoStopped then { v with currentTime := 0 } else v
    { s with video := v }

/-- The `.catch` handler attached to the play promise in `onHoverStart`
(HoverVideoPlayer.js lines 208-218): clear `isPlayAttemptInProgress`, cancel the
loading-state timeout, `console.error` the failure, and call `pauseVideo`. -/
def onPlayPromiseCatch (p : Props) (s : PlayerState) : PlayerState :=
  pauseVideo p
    { s with
      isPlayAttemptInProgress := false
      loadingTimerPending := false
      errorLogCount := s.errorLogCount + 1 }

/-- The `.then` handler attached after the catch (HoverVideoPlayer.js lines
219-231): clear `isPlayAttemptInProgress`, cancel the loading-state timeout; if the
attempt was cancelled, clear the flag and `pauseVideo`, otherwise set
`overlayState = playing`. -/
def onPlayPromiseThen (p : Props) (s : PlayerState) : PlayerState :=
  let s := { s with isPlayAttemptInProgress := false, loadingTimerPending := false }
  if s.isPlayAttemptCancelled then
    pauseVideo p { s with isPlayAttemptCancelled := false }
  else
    { s with overlayState := HoverPlayerState.playing }

/-- `onHoverStart` (HoverVideoPlayer.js lines 180-232): clear both timeouts, clear
the cancelled flag; if the element already reports playing, set
`overlayState = playing` and return; otherwise schedule the loading-state timeout
when a loading overlay is configured, and start `playVideo` unless an attempt is
already in progress. -/
def onHoverStart (p : Props) (s : PlayerState) : PlayerState :=
  let s := { s with pauseTimerPending := false, loadingTimerPending := false }
  let s := { s with isPlayAttemptCancelled := false }
  if getVideoState s.video = VideoState.playing then
    { s with overlayState := HoverPlayerState.playing }
  else
    let s := if p.hasLoadingOverlay then { s with loadingTimerPending := true } else s
    if s.isPlayAttemptInProgress then s
    else playVideo s

/-- `onHoverEnd` (HoverVideoPlayer.js lines 239-259): clear both timeouts; return
when `isFocused` or the element is already paused; otherwise set
`overlayState = paused` and schedule `pauseVideo` after
`overlayFadeTransitionDuration` when a paused overlay is configured, else after 0. -/
def onHoverEnd (p : Props) (s : PlayerState) : PlayerState :=
  let s := { s with loadingTimerPending := false, pauseTimerPending := false }
  if p.isFocused = true ∨ getVideoState s.video = VideoState.paused then s
  else
    { s with
      overlayState := HoverPlayerState.paused
      pauseTimerPending := true
      pauseTimerDelay :=
        if p.hasPausedOverlay then p.overlayFadeTransitionDuration else 0 }

/-- The events the environment (browser event loop) can deliver to one instance. -/
inductive Event
  | hoverStart
  | hoverEnd
  | loadingTimerFires
  | pauseTimerFires
  | playResolves
  | playRejects
  | unmount
deriving DecidableEq, Repr

/-- One step of the event loop.  A timer-fire event is a no-op when that timeout was
cleared.  Play-promise settlement is only deliverable while an attempt is in
progress (a promise settles once; the handlers clear the flag).  On resolution the
element has reached playback (the `playing` event), then the `.then` handler runs.
On rejection the `.catch` handler runs and then — because the source chains
`playVideo().catch(...).then(...)` and the catch handler returns normally — the
`.then` handler runs as well.  `unmount` is the cleanup of the effect at
HoverVideoPlayer.js lines 295-306: clear both timeouts and set the cancelled flag. -/
def step (p : Props) (s : PlayerState) : Event → PlayerState
  | Event.hoverStart => onHoverStart p s
  | Event.hoverEnd => onHoverEnd p s
  | Event.loadingTimerFires =>
      if s.loadingTimerPending then
        { s with loadingTimerPending := false, overlayState := HoverPlayerState.loading }
      else s
  | Event.pauseTimerFires =>
      if s.pauseTimerPending then pauseVideo p { s with pauseTimerPending := false }
      else s
  | Event.playResolves =>
      if s.isPlayAttemptInProgress then
        onPlayPromiseThen p { s with video := { s.video with videoState := VideoState.playing } }
      else s
  | Event.playRejects =>
      if s.isPlayAttemptInProgress then onPlayPromiseThen p (onPlayPromiseCatch p s)
      else s
  | Event.unmount =>
      { s with
        loadingTimerPending := false
        pauseTimerPending := false
        isPlayAttemptCancelled := true }

/-- Run a list of events from a state. -/
def run (p : Props) (s : PlayerState) : List Event → PlayerState
  | [] => s
  | e :: es => run p (step p s e) es

/-- All states visited while running a list of events (the start state included). -/
def statesAlong (p : Props) (s : PlayerState) : List Event → List PlayerState
  | [] => [s]
  | e :: es => s :: statesAlong p (step p s e) es

/-- A concrete prop assignment used for witnesses and counterexamples: not focused,
both overlays configured, the default durations, restart on stop. -/
def exampleProps : Props :=
  { isFocused := false
    hasPausedOverlay := true
    hasLoadingOverlay := true
    loadingStateTimeoutDuration := 200
    overlayFadeTransitionDuration := 400
    shouldRestartOnVideoStopped := true }

/-- A concrete state whose media element is playing mid-video. -/
def playingState : PlayerState :=
  { initialState with
    overlayState := HoverPlayerState.playing
    video := { videoState := VideoState.playing, currentTime := 5 } }

/-- A concrete reachable state with a play attempt in progress: the state right
after a hover start from the initial state. -/
def midAttemptState : PlayerState :=
  run exampleProps initialState [Event.hoverStart]

/-! ### Asset parser (modelled from the spec)

`formatVideoSrc` lives in `src/utils.js`, which is not under `src/`; only its call
site (HoverVideoPlayer.js lines 311-313) and the prop documentation are available.
The spec describes it as: string → one-element list with that string as `src`;
object → one-element list; array → pass-through with each element normalized to the
canonical `{src, type}` shape. -/

/-- The canonical `VideoSource` object shape `{src, type}` rendered as a `<source>`
element (the `type` attribute is optional). -/
structure VideoSource where
  src : String
  type' : Option String
deriving DecidableEq, Repr

/-- One element of an array passed as the `videoSrc` prop: a URL string or a
`{src, type}` object. -/
inductive VideoSrcItem
  | str (src : String)
  | obj (src : String) (type' : Option String)
deriving DecidableEq, Repr

/-- The accepted shapes of the `videoSrc` prop: a single URL string, a single
`{src, type}` object, or an array of either. -/
inductive VideoSrcProp
  | str (src : String)
  | obj (src : String) (type' : Option String)
  | arr (items : List VideoSrcItem)
deriving DecidableEq, Repr

/-- Normalization of one array element to the canonical `VideoSource` shape. -/
def normalizeVideoSrcItem : VideoSrcItem → VideoSource
  | VideoSrcItem.str s => { src := s, type' := none }
  | VideoSrcItem.obj s t => { src := s, type' := t }

/-- Modelled from the spec: `formatVideoSrc` is in `src/utils.js`, not under
`src/`.  Per the spec: string → one-element list with that string as `src`; object
→ one-element list; array → pass-through, elements normalized. -/
def formatVideoSrc : VideoSrcProp → List VideoSource
  | VideoSrcProp.str s => [{ src := s, type' := none }]
  | VideoSrcProp.obj s t => [{ src := s, type' := t }]
  | VideoSrcProp.arr items => items.map normalizeVideoSrcItem

/-! ### The play-promise fallback (HoverVideoPlayer.js lines 125-145)

`playVideo` calls `videoElement.play()`; when that call does not return a thenable
(older browsers), the source constructs a substitute promise that resolves when the
element fires `playing` and rejects with `event.error` when it fires `error`.  The
substitute's settlement is a function of the stream of media events fired after
construction: the first `playing` or `error` event settles it (the listeners for
both are installed together; other events are not listened to). -/

/-- Events the media element can fire, as far as the fallback promise's listeners
are concerned: `playing`, `error` (with an error detail), or anything else. -/
inductive MediaEvent
  | playing
  | error (detail : Nat)
  | other
deriving DecidableEq, Repr

/-- Whether a media event is one the fallback promise does not listen to. -/
def isUnlistenedMediaEvent : MediaEvent → Bool
  | MediaEvent.other => true
  | _ => false

/-- Outcome of a play promise: resolved, or rejected with the error detail. -/
inductive PlaySettlement
  | resolved
  | rejected (detail : Nat)
deriving DecidableEq, Repr

/-- Which promise `playVideo` hands to the coordinator: the one returned by
`videoElement.play()` when that is a thenable, otherwise the manually constructed
fallback (HoverVideoPlayer.js line 127: `if (!playPromise || !playPromise.then)`). -/
inductive PlayPromiseKind
  | native
  | fallback
deriving DecidableEq, Repr

/-- The promise selection performed by `playVideo`. -/
def playVideoPromiseKind (playReturnedThenable : Bool) : PlayPromiseKind :=
  if playReturnedThenable then PlayPromiseKind.native else PlayPromiseKind.fallback

/-- Settlement of the fallback promise against the stream of media events fired
after its construction: the first `playing` event resolves it, the first `error`
event rejects it with the event's error, and it stays pending otherwise. -/
def fallbackPromiseSettlement : List MediaEvent → Option PlaySettlement
  | [] => none
  | MediaEvent.playing :: _ => some PlaySettlement.resolved
  | MediaEvent.error d :: _ => some (PlaySettlement.rejected d)
  | MediaEvent.other :: rest => fallbackPromiseSettlement rest

/-! ### Helper lemmas -/

/-- `pauseVideo` never touches the React `overlayState`. -/
lemma pauseVideo_overlay (p : Props) (s : PlayerState) :
    (pauseVideo p s).overlayState = s.overlayState := by
  unfold pauseVideo
  split
  · rfl
  · split <;> rfl

/-- `pauseVideo` never touches the loading-state timeout. -/
lemma pauseVideo_loadingTimer (p : Props) (s : PlayerState) :
    (pauseVideo p s).loadingTimerPending = s.loadingTimerPending := by
  unfold pauseVideo
  split
  · rfl
  · split <;> rfl

/-- When a play attempt is in progress, `pauseVideo` only marks it cancelled. -/
lemma pauseVideo_inProgress (p : Props) (s : PlayerState)
    (h : s.isPlayAttemptInProgress = true) :
    pauseVideo p s = { s with isPlayAttemptCancelled := true } := by
  unfold pauseVideo
  rw [if_pos h]

/-- When the cancelled flag is set, the play-promise `.then` handler pauses and
leaves `overlayState` untouched. -/
lemma onPlayPromiseThen_cancelled_overlay (p : Props) (s : PlayerState)
    (h : s.isPlayAttemptCancelled = true) :
    (onPlayPromiseThen p s).overlayState = s.overlayState := by
  unfold onPlayPromiseThen
  rw [if_pos h, pauseVideo_overlay]

/-- `pauseVideo` never clears a cancelled flag that is set. -/
lemma pauseVideo_cancelled (p : Props) (s : PlayerState)
    (h : s.isPlayAttemptCancelled = true) :
    (pauseVideo p s).isPlayAttemptCancelled = true := by
  unfold pauseVideo
  split
  · rfl
  · split <;> exact h

/-- The play-promise `.catch` handler never touches `overlayState`. -/
lemma onPlayPromiseCatch_overlay (p : Props) (s : PlayerState) :
    (onPlayPromiseCatch p s).overlayState = s.overlayState := by
  unfold onPlayPromiseCatch
  rw [pauseVideo_overlay]

/-- The play-promise `.catch` handler never clears a cancelled flag that is set. -/
lemma onPlayPromiseCatch_cancelled (p : Props) (s : PlayerState)
    (h : s.isPlayAttemptCancelled = true) :
    (onPlayPromiseCatch p s).isPlayAttemptCancelled = true := by
  unfold onPlayPromiseCatch
  exact pauseVideo_cancelled p _ h

/-- `onHoverEnd` in the guarded case (focused override active, or element already
paused) only clears the two timeouts. -/
lemma onHoverEnd_noop (p : Props) (s : PlayerState)
    (h : p.isFocused = true ∨ getVideoState s.video = VideoState.paused) :
    onHoverEnd p s =
      { s with loadingTimerPending := false, pauseTimerPending := false } := by
  unfold onHoverEnd
  rw [if_pos h]

/-- `onHoverEnd` in the acting case: clears the timeouts, sets the phase to paused
and schedules the pause timeout with the fade-transition delay (0 without a paused
overlay). -/
lemma onHoverEnd_action (p : Props) (s : PlayerState)
    (hf : p.isFocused = false) (hvid : getVideoState s.video ≠ VideoState.paused) :
    onHoverEnd p s =
      { s with
        loadingTimerPending := false
        overlayState := HoverPlayerState.paused
        pauseTimerPending := true
        pauseTimerDelay :=
          if p.hasPausedOverlay then p.overlayFadeTransitionDuration else 0 } := by
  unfold onHoverEnd
  rw [if_neg]
  simp [hf, hvid]

/-! ### C5: onHoverEnd behavior -/

/-- C5: `onHoverEnd` first cancels both pending timers; beyond that it is a no-op
when the forced-play override `isFocused` is active or the video is already paused;
otherwise it sets the phase to Paused immediately and schedules the actual pause
after `overlayFadeTransitionDuration` when a paused overlay is configured and 0
otherwise, leaving the media element and attempt flags untouched. -/
theorem onHoverEnd_behavior (p : Props) (s : PlayerState) :
    (onHoverEnd p s).loadingTimerPending = false ∧
    ((p.isFocused = true ∨ getVideoState s.video = VideoState.paused) →
      onHoverEnd p s =
        { s with loadingTimerPending := false, pauseTimerPending := false }) ∧
    (p.isFocused = false → getVideoState s.video ≠ VideoState.paused →
      (onHoverEnd p s).overlayState = HoverPlayerState.paused ∧
      (onHoverEnd p s).pauseTimerPending = true ∧
      (onHoverEnd p s).pauseTimerDelay =
        (if p.hasPausedOverlay then p.overlayFadeTransitionDuration else 0) ∧
      (onHoverEnd p s).video = s.video ∧
      (onHoverEnd p s).playCallCount = s.playCallCount ∧
      (onHoverEnd p s).isPlayAttemptInProgress = s.isPlayAttemptInProgress ∧
      (onHoverEnd p s).isPlayAttemptCancelled = s.isPlayAttemptCancelled) := by
  refine ⟨?_, fun h => onHoverEnd_noop p s h, fun hf hvid => ?_⟩
  · by_cases h : p.isFocused = true ∨ getVideoState s.video = VideoState.paused
    · rw [onHoverEnd_noop p s h]
    · rcases not_or.mp h with ⟨h1, h2⟩
      rw [onHoverEnd_action p s (by simpa using h1) h2]
  · rw [onHoverEnd_action p s hf hvid]
    simp

/-- C5 witness: a hover-end on the example props from a state whose element is
playing mid-video acts (not guarded), sets the phase to paused and schedules the
pause with the 400ms fade delay. -/
theorem onHoverEnd_behavior_witness :
    (onHoverEnd exampleProps playingState).overlayState = HoverPlayerState.paused ∧
    (onHoverEnd exampleProps playingState).pauseTimerPending = true ∧
    (onHoverEnd exampleProps playingState).pauseTimerDelay = 400 := by
  have h := (onHoverEnd_behavior exampleProps playingState).2.2 rfl (by decide)
  exact ⟨h.1, h.2.1, by rw [h.2.2.1]; decide⟩

/-! ### C6: hover start while already playing -/

/-- C6: an `onHoverStart` while the media element reports it is already playing
only clears the timeouts and the cancelled flag and sets the phase to Playing: no
loading timeout is scheduled and no new play attempt is started (the record
equality leaves `playCallCount` and `isPlayAttemptInProgress` unchanged). -/
theorem hoverStart_alreadyPlaying (p : Props) (s : PlayerState)
    (h : getVideoState s.video = VideoState.playing) :
    onHoverStart p s =
      { s with
        pauseTimerPending := false
        loadingTimerPending := false
        isPlayAttemptCancelled := false
        overlayState := HoverPlayerState.playing } := by
  unfold onHoverStart
  rw [if_pos h]

/-- C6 witness: hover start on the example props from the playing state. -/
theorem hoverStart_alreadyPlaying_witness :
    getVideoState playingState.video = VideoState.playing ∧
    onHoverStart exampleProps playingState =
      { playingState with
        pauseTimerPending := false
        loadingTimerPending := false
        isPlayAttemptCancelled := false
        overlayState := HoverPlayerState.playing } :=
  ⟨rfl, hoverStart_alreadyPlaying exampleProps playingState rfl⟩

/-! ### C8: pauseVideo and the playback position -/

/-- C8: when `pauseVideo` performs an actual pause (no attempt in progress), the
element ends paused and its `currentTime` is 0 when `shouldRestartOnVideoStopped`
and unchanged otherwise. -/
theorem pauseVideo_currentTime (p : Props) (s : PlayerState)
    (h : s.isPlayAttemptInProgress = false) :
    (pauseVideo p s).video.videoState = VideoState.paused ∧
    (pauseVideo p s).video.currentTime =
      (if p.shouldRestartOnVideoStopped then 0 else s.video.currentTime) := by
  unfold pauseVideo
  rw [if_neg (by simp [h])]
  cases hr : p.shouldRestartOnVideoStopped <;> simp

/-- C8 witness: an actual pause at the example props (restart on) from the playing
state at time 5 resets the position to 0; with restart off it stays at 5. -/
theorem pauseVideo_currentTime_witness :
    (pauseVideo exampleProps playingState).video.currentTime = 0 ∧
    (pauseVideo { exampleProps with shouldRestartOnVideoStopped := false }
      playingState).video.currentTime = 5 := by
  constructor
  · rw [(pauseVideo_currentTime exampleProps playingState rfl).2]
    decide
  · rw [(pauseVideo_currentTime { exampleProps with shouldRestartOnVideoStopped := false }
      playingState rfl).2]
    decide

/-! ### C9: asset parser -/

/-- C9: the asset parser sends a single string to the one-element list with that
string as `src`, and an array of N items to the length-N list of its elements
normalized to the canonical object shape, in order. -/
theorem formatVideoSrc_normalizes (s : String) (items : List VideoSrcItem) :
    formatVideoSrc (VideoSrcProp.str s) = [{ src := s, type' := none }] ∧
    formatVideoSrc (VideoSrcProp.arr items) = items.map normalizeVideoSrcItem ∧
    (formatVideoSrc (VideoSrcProp.arr items)).length = items.length := by
  refine ⟨rfl, rfl, ?_⟩
  simp [formatVideoSrc]

/-! ### C3: at most one play attempt in progress -/

/-- C3: an `onHoverStart` made while a play attempt is already in progress does not
invoke the media play operation again (`playCallCount` is unchanged), leaves that
attempt in progress, and clears its cancelled flag. -/
theorem hoverStart_noSecondAttempt (p : Props) (s : PlayerState)
    (h : s.isPlayAttemptInProgress = true) :
    (onHoverStart p s).playCallCount = s.playCallCount ∧
    (onHoverStart p s).isPlayAttemptInProgress = true ∧
    (onHoverStart p s).isPlayAttemptCancelled = false := by
  unfold onHoverStart
  by_cases hv : getVideoState s.video = VideoState.playing
  · rw [if_pos hv]
    exact ⟨rfl, h, rfl⟩
  · rw [if_neg hv]
    cases hl : p.hasLoadingOverlay <;> simp [hl, h]

/-- C3 witness: a second hover start from the concrete mid-attempt state does not
call play again and keeps the one attempt in progress. -/
theorem hoverStart_noSecondAttempt_witness :
    midAttemptState.isPlayAttemptInProgress = true ∧
    (onHoverStart exampleProps midAttemptState).playCallCount =
      midAttemptState.playCallCount ∧
    (onHoverStart exampleProps midAttemptState).isPlayAttemptInProgress = true ∧
    (onHoverStart exampleProps midAttemptState).isPlayAttemptCancelled = false :=
  ⟨rfl, hoverStart_noSecondAttempt exampleProps midAttemptState rfl⟩

/-! ### C7: teardown cleanup -/

/-- C7: the unmount cleanup cancels both the loading-state timeout and the pause
timeout and sets the cancelled flag, so a play-promise settlement delivered after
teardown leaves the instance's phase (`overlayState`) unchanged. -/
theorem unmount_cleanup_lateSettle (p : Props) (s : PlayerState) :
    (step p s Event.unmount).loadingTimerPending = false ∧
    (step p s Event.unmount).pauseTimerPending = false ∧
    (step p s Event.unmount).isPlayAttemptCancelled = true ∧
    (step p (step p s Event.unmount) Event.playResolves).overlayState =
      (step p s Event.unmount).overlayState ∧
    (step p (step p s Event.unmount) Event.playRejects).overlayState =
      (step p s Event.unmount).overlayState := by
  have hcan : (step p s Event.unmount).isPlayAttemptCancelled = true := rfl
  refine ⟨rfl, rfl, rfl, ?_, ?_⟩
  · generalize hsu : step p s Event.unmount = su at hcan ⊢
    cases hs : su.isPlayAttemptInProgress
    · simp [step, hs]
    · simp only [step, hs, if_true]
      exact onPlayPromiseThen_cancelled_overlay p _ hcan
  · generalize hsu : step p s Event.unmount = su at hcan ⊢
    cases hs : su.isPlayAttemptInProgress
    · simp [step, hs]
    · simp only [step, hs, if_true]
      exact (onPlayPromiseThen_cancelled_overlay p _
          (onPlayPromiseCatch_cancelled p _ hcan)).trans (onPlayPromiseCatch_overlay p _)

/-! ### C10: playVideo always hands back a settleable promise -/

/-- C10: when `videoElement.play()` does not return a thenable, `playVideo`
substitutes the manually constructed fallback promise, and that promise resolves at
the element's first `playing` event and rejects with the event's error at the
element's first `error` event (events it does not listen to are skipped). -/
theorem playVideo_fallbackPromise (pre rest : List MediaEvent) (d : Nat)
    (h : pre.all isUnlistenedMediaEvent = true) :
    playVideoPromiseKind false = PlayPromiseKind.fallback ∧
    fallbackPromiseSettlement (pre ++ MediaEvent.playing :: rest) =
      some PlaySettlement.resolved ∧
    fallbackPromiseSettlement (pre ++ MediaEvent.error d :: rest) =
      some (PlaySettlement.rejected d) := by
  refine ⟨rfl, ?_, ?_⟩ <;>
  · induction pre with
    | nil => rfl
    | cons e es ih =>
      cases e <;> simp_all [fallbackPromiseSettlement, isUnlistenedMediaEvent]

/-- C10 witness: with one unlistened event first, the fallback promise resolves at
the `playing` event and rejects with detail 3 at the `error` event. -/
theorem playVideo_fallbackPromise_witness :
    ([MediaEvent.other].all isUnlistenedMediaEvent = true) ∧
    fallbackPromiseSettlement [MediaEvent.other, MediaEvent.playing] =
      some PlaySettlement.resolved ∧
    fallbackPromiseSettlement [MediaEvent.other, MediaEvent.error 3] =
      some (PlaySettlement.rejected 3) := by
  have h := playVideo_fallbackPromise [MediaEvent.other] [] 3 (by decide)
  exact ⟨by decide, h.2.1, h.2.2⟩

/-! ### More step-level helper lemmas -/

/-- A pause-timeout firing never touches `overlayState` (it either marks the
attempt cancelled or pauses the media element). -/
lemma step_pauseTimer_overlay (p : Props) (s : PlayerState) :
    (step p s Event.pauseTimerFires).overlayState = s.overlayState := by
  simp only [step]
  split
  · rw [pauseVideo_overlay]
  · rfl

/-- A pause-timeout firing never touches the loading-state timeout. -/
lemma step_pauseTimer_loadingTimer (p : Props) (s : PlayerState) :
    (step p s Event.pauseTimerFires).loadingTimerPending = s.loadingTimerPending := by
  simp only [step]
  split
  · rw [pauseVideo_loadingTimer]
  · rfl

/-- A pause-timeout firing never changes whether an attempt is in progress. -/
lemma step_pauseTimer_inProgress (p : Props) (s : PlayerState) :
    (step p s Event.pauseTimerFires).isPlayAttemptInProgress =
      s.isPlayAttemptInProgress := by
  simp only [step]
  split
  · unfold pauseVideo
    split
    · rfl
    · split <;> rfl
  · rfl

/-- When the pause timeout is pending and an attempt is in progress, the timeout's
`pauseVideo` call marks the attempt cancelled. -/
lemma step_pauseTimer_cancels (p : Props) (s : PlayerState)
    (hpend : s.pauseTimerPending = true) (hprog : s.isPlayAttemptInProgress = true) :
    (step p s Event.pauseTimerFires).isPlayAttemptCancelled = true := by
  have h := pauseVideo_inProgress p { s with pauseTimerPending := false } hprog
  simp only [step]
  rw [if_pos hpend, h]

/-- A play-promise resolution delivered while the attempt is cancelled leaves the
phase unchanged. -/
lemma step_playResolves_cancelled_overlay (p : Props) (s : PlayerState)
    (hprog : s.isPlayAttemptInProgress = true) (hcan : s.isPlayAttemptCancelled = true) :
    (step p s Event.playResolves).overlayState = s.overlayState := by
  simp only [step]
  rw [if_pos hprog]
  exact onPlayPromiseThen_cancelled_overlay p _ hcan

/-- A play-promise rejection delivered while the attempt is cancelled leaves the
phase unchanged. -/
lemma step_playRejects_cancelled_overlay (p : Props) (s : PlayerState)
    (hprog : s.isPlayAttemptInProgress = true) (hcan : s.isPlayAttemptCancelled = true) :
    (step p s Event.playRejects).overlayState = s.overlayState := by
  simp only [step]
  rw [if_pos hprog]
  exact (onPlayPromiseThen_cancelled_overlay p _
      (onPlayPromiseCatch_cancelled p _ hcan)).trans (onPlayPromiseCatch_overlay p _)

/-! ### C1: hover-end during an in-progress play attempt -/

/-- C1 counterexample: from the initial state with the example props, hover start,
then hover end while the attempt is in progress, then the play promise resolves —
before the scheduled pause timeout has fired.  The `.then` handler finds the
cancelled flag still clear (only the pause timeout's `pauseVideo` call would set
it) and enters the Playing phase after the user already left, instead of the
claimed Paused. -/
theorem hoverEnd_midAttempt_flashOfPlaying :
    (run exampleProps initialState
        [Event.hoverStart, Event.hoverEnd, Event.playResolves]).overlayState =
      HoverPlayerState.playing ∧
    (run exampleProps initialState
        [Event.hoverStart, Event.hoverEnd, Event.playResolves]).isPlayAttemptInProgress =
      false :=
  ⟨rfl, rfl⟩

/-- C1 amended: if the scheduled pause timeout fires (invoking `pauseVideo`, which
records the cancellation) before the play promise settles, then once the attempt
settles — by resolution or rejection — the phase is Paused and Playing is never
entered for that attempt; without that, the cancellation is only recorded when the
pause timeout fires, and a settlement in between enters Playing. -/
theorem hoverEnd_midAttempt_pauseTimerFirst_paused (p : Props) (s : PlayerState)
    (hf : p.isFocused = false) (hprog : s.isPlayAttemptInProgress = true)
    (hvid : getVideoState s.video ≠ VideoState.paused) :
    (step p s Event.hoverEnd).overlayState = HoverPlayerState.paused ∧
    (step p (step p s Event.hoverEnd) Event.pauseTimerFires).overlayState =
      HoverPlayerState.paused ∧
    (step p (step p (step p s Event.hoverEnd) Event.pauseTimerFires)
        Event.playResolves).overlayState = HoverPlayerState.paused ∧
    (step p (step p (step p s Event.hoverEnd) Event.pauseTimerFires)
        Event.playRejects).overlayState = HoverPlayerState.paused := by
  have h1 : step p s Event.hoverEnd = onHoverEnd p s := rfl
  have hov1 : (step p s Event.hoverEnd).overlayState = HoverPlayerState.paused := by
    rw [h1, onHoverEnd_action p s hf hvid]
  have hprog1 : (step p s Event.hoverEnd).isPlayAttemptInProgress = true := by
    rw [h1, onHoverEnd_action p s hf hvid]
    exact hprog
  have hpend1 : (step p s Event.hoverEnd).pauseTimerPending = true := by
    rw [h1, onHoverEnd_action p s hf hvid]
  have hov2 : (step p (step p s Event.hoverEnd) Event.pauseTimerFires).overlayState =
      HoverPlayerState.paused := by
    rw [step_pauseTimer_overlay]
    exact hov1
  have hprog2 : (step p (step p s Event.hoverEnd)
      Event.pauseTimerFires).isPlayAttemptInProgress = true := by
    rw [step_pauseTimer_inProgress]
    exact hprog1
  have hcan2 : (step p (step p s Event.hoverEnd)
      Event.pauseTimerFires).isPlayAttemptCancelled = true :=
    step_pauseTimer_cancels p _ hpend1 hprog1
  refine ⟨hov1, hov2, ?_, ?_⟩
  · rw [step_playResolves_cancelled_overlay p _ hprog2 hcan2]
    exact hov2
  · rw [step_playRejects_cancelled_overlay p _ hprog2 hcan2]
    exact hov2

/-- C1 amended witness: the concrete mid-attempt state (after a hover start from
the initial state) run through hover end, the pause timeout firing, and then the
play promise resolving ends — and stays — in the Paused phase. -/
theorem hoverEnd_midAttempt_pauseTimerFirst_paused_witness :
    midAttemptState.isPlayAttemptInProgress = true ∧
    (run exampleProps midAttemptState
        [Event.hoverEnd, Event.pauseTimerFires, Event.playResolves]).overlayState =
      HoverPlayerState.paused := by
  have h := hoverEnd_midAttempt_pauseTimerFirst_paused exampleProps midAttemptState
    rfl rfl (by decide)
  exact ⟨rfl, h.2.2.1⟩

/-! ### C2: play-promise rejection -/

/-- C2: from the initial state with the example props, hover start then a play
rejection.  The `.catch` handler logs the error (`errorLogCount` becomes 1) and
pauses the media element — but because the source chains
`playVideo().catch(...).then(...)`, the `.then` handler also runs on the rejection
path and, with the cancelled flag clear, sets the phase to Playing.  The attempt
settles with `overlayState = playing` over a paused element, contradicting the
claimed revert to Paused with Playing never entered. -/
theorem playRejection_entersPlaying :
    (run exampleProps initialState [Event.hoverStart, Event.playRejects]).errorLogCount =
      1 ∧
    (run exampleProps initialState
        [Event.hoverStart, Event.playRejects]).video.videoState = VideoState.paused ∧
    (run exampleProps initialState [Event.hoverStart, Event.playRejects]).overlayState =
      HoverPlayerState.playing :=
  ⟨rfl, rfl, rfl⟩

/-! ### C4: rapid hover start then hover end before the loading timeout -/

/-- Whether an event is one of the two timeout firings. -/
def isTimerEvent : Event → Bool
  | Event.loadingTimerFires => true
  | Event.pauseTimerFires => true
  | _ => false

lemma isTimerEvent_cases (e : Event) (h : isTimerEvent e = true) :
    e = Event.loadingTimerFires ∨ e = Event.pauseTimerFires := by
  cases e <;> simp [isTimerEvent] at h ⊢

/-- Once the phase is paused and the loading timeout has been cleared, a timeout
firing keeps the phase paused and the loading timeout clear (a cleared timeout is a
no-op, and the pause timeout's `pauseVideo` never touches the phase). -/
lemma timerEvent_preserves (p : Props) (s : PlayerState) (e : Event)
    (he : isTimerEvent e = true)
    (hov : s.overlayState = HoverPlayerState.paused)
    (hlt : s.loadingTimerPending = false) :
    (step p s e).overlayState = HoverPlayerState.paused ∧
    (step p s e).loadingTimerPending = false := by
  rcases isTimerEvent_cases e he with rfl | rfl
  · simp only [step]
    rw [if_neg (by simp [hlt])]
    exact ⟨hov, hlt⟩
  · exact ⟨(step_pauseTimer_overlay p s).trans hov,
      (step_pauseTimer_loadingTimer p s).trans hlt⟩

/-- A run of timeout firings from a paused phase with the loading timeout cleared
stays paused throughout. -/
lemma timer_suffix_run (p : Props) : ∀ (es : List Event) (s : PlayerState),
    es.all isTimerEvent = true →
    s.overlayState = HoverPlayerState.paused →
    s.loadingTimerPending = false →
    (run p s es).overlayState = HoverPlayerState.paused ∧
    ∀ t ∈ statesAlong p s es, t.overlayState = HoverPlayerState.paused := by
  intro es
  induction es with
  | nil =>
    intro s _ hov _
    refine ⟨hov, ?_⟩
    intro t ht
    rw [show statesAlong p s [] = [s] from rfl, List.mem_singleton] at ht
    rw [ht]
    exact hov
  | cons e es ih =>
    intro s hall hov hlt
    rw [List.all_cons, Bool.and_eq_true] at hall
    have hstep := timerEvent_preserves p s e hall.1 hov hlt
    have ih' := ih (step p s e) hall.2 hstep.1 hstep.2
    refine ⟨ih'.1, ?_⟩
    intro t ht
    rw [show statesAlong p s (e :: es) = s :: statesAlong p (step p s e) es from rfl,
      List.mem_cons] at ht
    rcases ht with rfl | ht
    · exact hov
    · exact ih'.2 t ht

/-- From the initial state, a hover start immediately followed by a hover end
leaves the phase paused (both before and after the hover end) and the
loading-state timeout cancelled, for every prop assignment. -/
lemma after_rapid_hover (p : Props) :
    (run p initialState [Event.hoverStart, Event.hoverEnd]).overlayState =
      HoverPlayerState.paused ∧
    (run p initialState [Event.hoverStart, Event.hoverEnd]).loadingTimerPending =
      false ∧
    (step p initialState Event.hoverStart).overlayState = HoverPlayerState.paused := by
  cases hf : p.isFocused <;> cases hl : p.hasLoadingOverlay <;>
    simp [run, step, onHoverStart, onHoverEnd, playVideo, getVideoState, initialState,
      hf, hl]

/-- C4: for every prop assignment, hover start followed by hover end before either
timeout fires (continued by any sequence of timeout firings, in particular the
cancelled loading timeout never firing as scheduled) never enters the Loading
phase, and the phase ends — and stays — Paused. -/
theorem rapidHoverStartEnd_noLoading (p : Props) (suffix : List Event)
    (hall : suffix.all isTimerEvent = true) :
    (∀ t ∈ statesAlong p initialState
        (Event.hoverStart :: Event.hoverEnd :: suffix),
      t.overlayState ≠ HoverPlayerState.loading) ∧
    (run p initialState
        (Event.hoverStart :: Event.hoverEnd :: suffix)).overlayState =
      HoverPlayerState.paused := by
  have hmid := after_rapid_hover p
  have hsuf := timer_suffix_run p suffix
    (run p initialState [Event.hoverStart, Event.hoverEnd]) hall hmid.1 hmid.2.1
  constructor
  · intro t ht
    rw [show statesAlong p initialState
          (Event.hoverStart :: Event.hoverEnd :: suffix) =
        initialState :: (step p initialState Event.hoverStart) ::
          statesAlong p (run p initialState [Event.hoverStart, Event.hoverEnd]) suffix
        from rfl, List.mem_cons, List.mem_cons] at ht
    rcases ht with rfl | rfl | hmem
    · decide
    · rw [hmid.2.2]
      decide
    · rw [hsuf.2 t hmem]
      decide
  · exact hsuf.1

/-- C4 witness: with the example props, hover start then hover end then both
timeouts attempting to fire ends in the Paused phase. -/
theorem rapidHoverStartEnd_noLoading_witness :
    ([Event.loadingTimerFires, Event.pauseTimerFires].all isTimerEvent = true) ∧
    (run exampleProps initialState
        [Event.hoverStart, Event.hoverEnd, Event.loadingTimerFires,
          Event.pauseTimerFires]).overlayState = HoverPlayerState.paused :=
  ⟨rfl, (rapidHoverStartEnd_noLoading exampleProps
      [Event.loadingTimerFires, Event.pauseTimerFires] rfl).2⟩

end HoverVideoPlayer
